import Mathlib

/-!
# aumix: N-1 audio source and play

A shallow embedding of `modules/aumix/aumix.c`.

* Heap objects (`struct ausrc_st`, `struct auplay_st`) are addressed by natural
  numbers; `NULL` is `none`.  An object is alive exactly while it is linked in its
  registry (`ausrcl`, `auplayl`), so a registry is the insertion-ordered list of
  `(address, contents)` pairs and dereferencing an address that is not linked is a
  fault (the C program reads freed memory there).
* The results of the library allocators (`mem_zalloc`, `aumix_source_alloc`) are
  parameters of the allocation functions.
* Handler invocations and the contribution submission are recorded as a trace of
  `Event`s; what the write handler leaves in the buffer is given by `Callbacks`.
* `uint64_t` arithmetic is `Nat` arithmetic modulo `2 ^ 64`.
-/

namespace Aumix

/-! ## Constants -/

/-- Tick duration in milliseconds: `enum { PTIME = 20, ... }`. -/
def PTIME : Nat := 20

/-- Mixer sample rate: `enum { ..., SRATE = 48000, ... }`. -/
def SRATE : Nat := 48000

/-- Mixer channel count: `enum { ..., CH = 2 }`. -/
def CH : Nat := 2

/-- The errno value `EINVAL`. -/
def EINVAL : Nat := 22

/-- The errno value `ENOMEM`. -/
def ENOMEM : Nat := 12

/-! ## Data model -/

/-- Capture parameters `struct ausrc_prm` (format tag, sample rate, channels). -/
structure ausrc_prm where
  fmt : Nat
  srate : Nat
  ch : Nat
deriving DecidableEq, Repr

/-- Playback parameters `struct auplay_prm` (format tag, sample rate, channels). -/
structure auplay_prm where
  fmt : Nat
  srate : Nat
  ch : Nat
deriving DecidableEq, Repr

/-- The mixer engine's per-endpoint object `struct aumix_source`: its address and
whether it currently takes part in the mix.  A playback endpoint owns its mixer
source exclusively, so the object is stored by value. -/
structure aumix_source where
  handle : Nat
  enabled : Bool
deriving DecidableEq, Repr

/-- Capture endpoint `struct ausrc_st`; `st_play` is the peer pointer. -/
structure ausrc_st where
  prm : ausrc_prm
  rh : Nat
  st_play : Option Nat
  arg : Nat
  device : Option String
deriving DecidableEq, Repr

/-- Playback endpoint `struct auplay_st`; `st_src` is the peer pointer. -/
structure auplay_st where
  prm : auplay_prm
  wh : Nat
  sampv : List Int
  aumix_src : Option aumix_source
  st_src : Option Nat
  arg : Nat
  ts : Nat
  device : Option String
deriving DecidableEq, Repr

/-- The module globals `auplayl` and `ausrcl`. -/
structure State where
  auplayl : List (Nat × auplay_st)
  ausrcl : List (Nat × ausrc_st)
deriving DecidableEq, Repr

/-- Audio frame `struct auframe` handed to the handlers. -/
structure auframe where
  fmt : Nat
  sampv : List Int
  sampc : Nat
  srate : Nat
  ch : Nat
  timestamp : Nat
deriving DecidableEq, Repr

/-- External calls made by one tick. -/
inductive Event where
  | rh (h : Nat) (af : auframe) (arg : Nat)
  | wh (h : Nat) (af : auframe) (arg : Nat)
  | aumix_source_put (src : Option Nat) (sampv : List Int) (sampc : Nat)
deriving DecidableEq, Repr

/-- Memory faults of the C program. -/
inductive Fault where
  | null_deref
  | dangling
deriving DecidableEq, Repr

/-- The host framework's write handlers: `wh h af arg` is the content the handler
`h` leaves in the frame's sample buffer. -/
structure Callbacks where
  wh : Nat → auframe → Nat → List Int

/-- What an allocation function hands back: the return code, the globals
afterwards and the value stored through `stp`. -/
structure AllocResult where
  err : Nat
  state : State
  stp : Option Nat
deriving DecidableEq, Repr

/-! ## Heap and list helpers -/

/-- Read the object at address `p`; `none` when no linked object lives there. -/
def deref {α : Type} : List (Nat × α) → Nat → Option α
  | [], _ => none
  | (q, x) :: rest, p => if q = p then some x else deref rest p

/-- Overwrite the object at address `p`. -/
def store {α : Type} : List (Nat × α) → Nat → α → List (Nat × α)
  | [], _, _ => []
  | (q, x) :: rest, p, y => if q = p then (q, y) :: rest else (q, x) :: store rest p y

/-- The call `list_unlink(&st->le)`: take the element at address `p` out of its list;
nothing happens when it is not linked. -/
def list_unlink {α : Type} (l : List (Nat × α)) (p : Nat) : List (Nat × α) :=
  l.filter (fun e => decide (e.1 ≠ p))

/-- The call `list_append(list, &st->le, st)`. -/
def list_append {α : Type} (l : List (Nat × α)) (p : Nat) (x : α) : List (Nat × α) :=
  l ++ [(p, x)]

/-- The call `auframe_init(&af, fmt, sampv, sampc, srate, ch)`. -/
def auframe_init (fmt : Nat) (sampv : List Int) (sampc : Nat) (srate ch : Nat) : auframe :=
  { fmt := fmt, sampv := sampv, sampc := sampc, srate := srate, ch := ch, timestamp := 0 }

/-- The call `aumix_source_enable(src, enable)`; a null source is ignored. -/
def aumix_source_enable (src : Option aumix_source) (enable : Bool) : Option aumix_source :=
  src.map (fun m => { m with enabled := enable })

/-! ## Endpoint creation -/

/-- The loop of `src_alloc` over `auplayl`: the first playback endpoint whose `arg`
equals the new source's gets `st_src = st`; its address is returned for `st->st_play`. -/
def src_scan (st arg : Nat) : List (Nat × auplay_st) → List (Nat × auplay_st) × Option Nat
  | [] => ([], none)
  | (p, st_play) :: rest =>
    if arg = st_play.arg then ((p, { st_play with st_src := some st }) :: rest, some p)
    else ((p, st_play) :: (src_scan st arg rest).1, (src_scan st arg rest).2)

/-- The function `src_alloc`.  `stp` and `asp` say whether those pointers are non-null,
`mem` is the result of `mem_zalloc`. -/
def src_alloc (s : State) (stp asp : Bool) (prm : Option ausrc_prm) (device : Option String)
    (rh arg : Nat) (mem : Option Nat) : AllocResult :=
  match stp, asp, prm with
  | true, true, some prm =>
    match mem with
    | none => { err := ENOMEM, state := s, stp := none }
    | some st =>
      let scan := src_scan st arg s.auplayl
      let obj : ausrc_st :=
        { prm := prm, rh := rh, st_play := scan.2, arg := arg, device := device }
      { err := 0
        state := { auplayl := scan.1, ausrcl := list_append s.ausrcl st obj }
        stp := some st }
  | _, _, _ => { err := EINVAL, state := s, stp := none }

/-- The function `auplay_destructor`: the mixer source and the buffer are released
with the object, and the object leaves `auplayl`. -/
def auplay_destructor (s : State) (st : Nat) : State :=
  { s with auplayl := list_unlink s.auplayl st }

/-- The loop of `play_alloc` over `ausrcl`: the first source endpoint whose `arg`
equals the new playback's gets `st_play = st`; its address is returned for `st->st_src`. -/
def play_scan (st arg : Nat) : List (Nat × ausrc_st) → List (Nat × ausrc_st) × Option Nat
  | [] => ([], none)
  | (p, st_src) :: rest =>
    if arg = st_src.arg then ((p, { st_src with st_play := some st }) :: rest, some p)
    else ((p, st_src) :: (play_scan st arg rest).1, (play_scan st arg rest).2)

/-- The function `play_alloc`.  `mem` is the result of `mem_zalloc` for the object,
`membuf` says whether the buffer allocation succeeded, `mix_err` and `mix_src` are the
return code of `aumix_source_alloc` and the source it stores on success. -/
def play_alloc (s : State) (stp ap : Bool) (prm : Option auplay_prm) (device : Option String)
    (wh arg : Nat) (mem : Option Nat) (membuf : Bool) (mix_err : Nat) (mix_src : aumix_source) :
    AllocResult :=
  match stp, ap, prm with
  | true, true, some prm =>
    match mem with
    | none => { err := ENOMEM, state := s, stp := none }
    | some st =>
      if membuf = false then
        { err := ENOMEM, state := auplay_destructor s st, stp := none }
      else if mix_err ≠ 0 then
        { err := mix_err, state := auplay_destructor s st, stp := none }
      else
        let scan := play_scan st arg s.ausrcl
        let obj : auplay_st :=
          { prm := prm, wh := wh, sampv := List.replicate (SRATE * CH * PTIME / 1000) 0,
            aumix_src := some mix_src, st_src := scan.2, arg := arg, ts := 0, device := device }
        { err := 0
          state := { auplayl := list_append s.auplayl st obj, ausrcl := scan.1 }
          stp := some st }
  | _, _, _ => { err := EINVAL, state := s, stp := none }

/-! ## Tick dispatch -/

/-- The function `mix_handler`, called by the mixer engine with the mixed samples
`sampv`, their count `sampc` and the playback endpoint `arg`.  The statements are
followed in order: the frame for the peer's read handler, the read handler, the frame
for the write handler, the write handler, `aumix_source_put`, and last the timestamp.
`st_play->st_src` is dereferenced without a test, so a null or stale peer pointer is
a fault before any handler runs. -/
def mix_handler (cb : Callbacks) (s : State) (sampv : List Int) (sampc : Nat) (arg : Nat) :
    Except Fault (State × List Event) :=
  match deref s.auplayl arg with
  | none => .error Fault.dangling
  | some st_play =>
    match st_play.st_src with
    | none => .error Fault.null_deref
    | some sp =>
      match deref s.ausrcl sp with
      | none => .error Fault.dangling
      | some st_src =>
        let af1 : auframe :=
          { auframe_init st_src.prm.fmt sampv sampc st_src.prm.srate st_play.prm.ch with
            timestamp := st_play.ts }
        let ev1 := Event.rh st_src.rh af1 st_src.arg
        let af2 : auframe :=
          { auframe_init st_play.prm.fmt st_play.sampv sampc st_play.prm.srate st_play.prm.ch with
            timestamp := st_play.ts }
        let ev2 := Event.wh st_play.wh af2 st_play.arg
        let buf := cb.wh st_play.wh af2 st_play.arg
        let ev3 := Event.aumix_source_put (st_play.aumix_src.map (fun m => m.handle)) buf sampc
        let st_play' : auplay_st :=
          { st_play with sampv := buf, ts := (st_play.ts + PTIME * 1000) % 2 ^ 64 }
        .ok ({ s with auplayl := store s.auplayl arg st_play' }, [ev1, ev2, ev3])

/-- Run `mix_handler` on the endpoint `arg` once for every `(sampv, sampc)` of `ticks`,
in order, and collect the events of each tick. -/
def run_ticks (cb : Callbacks) (arg : Nat) :
    State → List (List Int × Nat) → Except Fault (State × List (List Event))
  | s, [] => .ok (s, [])
  | s, (sampv, sampc) :: rest =>
    match mix_handler cb s sampv sampc arg with
    | .error f => .error f
    | .ok (s1, evs) =>
      match run_ticks cb arg s1 rest with
      | .error f => .error f
      | .ok (s2, more) => .ok (s2, evs :: more)

/-! ## Endpoint destruction -/

/-- The function `ausrc_destructor`: when `st->st_play` is non-null and has a mixer
source, that source is disabled; then the object leaves `ausrcl`.  The peer's
`st_src` is not written. -/
def ausrc_destructor (s : State) (arg : Nat) : Except Fault State :=
  match deref s.ausrcl arg with
  | none => .error Fault.dangling
  | some st =>
    match st.st_play with
    | none => .ok { s with ausrcl := list_unlink s.ausrcl arg }
    | some pp =>
      match deref s.auplayl pp with
      | none => .error Fault.dangling
      | some st_play =>
        match st_play.aumix_src with
        | none => .ok { s with ausrcl := list_unlink s.ausrcl arg }
        | some _ =>
          .ok { auplayl :=
                  store s.auplayl pp
                    { st_play with aumix_src := aumix_source_enable st_play.aumix_src false }
                ausrcl := list_unlink s.ausrcl arg }

/-! ## Control command -/

/-- Pointer-length string `struct pl`: `p` is the C string that starts at the pointer
(it runs to the terminating NUL of the underlying string), `l` the length. -/
structure pl where
  p : Option (List Char)
  l : Nat
deriving DecidableEq, Repr

/-- The constant `pl_null`. -/
def pl_null : pl := { p := none, l := 0 }

/-- The call `re_regex(r.p, r.l, "[^,]+,[~]*", &device, &enable_pl)` of libre: the first
non-empty run of non-comma characters that is followed by a comma is `device`, what
follows that comma is `enable_pl`.  Returns the error code (`ENOENT` = 2 when nothing
matches) and the two captures; both point into the argument string. -/
def re_regex_device_enable (r : List Char) : Nat × pl × pl :=
  let start := r.dropWhile (fun c => c == ',')
  let dev := start.takeWhile (fun c => c != ',')
  match start.dropWhile (fun c => c != ',') with
  | [] => (2, pl_null, pl_null)
  | _ :: tail => (0, { p := some start, l := dev.length }, { p := some tail, l := tail.length })

/-- The call `str_cmp(s1, s2)` of libre: 1 when a pointer is null, else `strcmp`
(only zero versus non-zero is used). -/
def str_cmp (s1 s2 : Option (List Char)) : Int :=
  match s1, s2 with
  | some a, some b => if a = b then 0 else 1
  | _, _ => 1

/-- The call `str_bool(&enable, str)` of libre (the comparison ignores
case): the value it stores, `none` when the string is not a boolean token and the
variable is left unwritten. -/
def str_bool (str : Option (List Char)) : Option Bool :=
  match str with
  | none => none
  | some cs =>
    let t := cs.map Char.toLower
    if t = "0".toList ∨ t = "false".toList ∨ t = "disable".toList ∨ t = "off".toList ∨
        t = "no".toList then some false
    else if t = "1".toList ∨ t = "true".toList ∨ t = "enable".toList ∨ t = "on".toList ∨
        t = "yes".toList then some true
    else none

/-- The `LIST_FOREACH(&auplayl, le)` loop of `source_enable`: an endpoint for which
`!str_cmp(st->device, device.p)` holds is skipped by `continue`, every other endpoint
gets `aumix_source_enable(st->aumix_src, enable)`. -/
def source_enable_loop (device : pl) (enable : Bool) :
    List (Nat × auplay_st) → List (Nat × auplay_st)
  | [] => []
  | (p, st) :: rest =>
    if str_cmp (st.device.map String.toList) device.p = 0 then
      (p, st) :: source_enable_loop device enable rest
    else
      (p, { st with aumix_src := aumix_source_enable st.aumix_src enable }) ::
        source_enable_loop device enable rest

/-- The function `source_enable` on the command argument `prm`.  `enable0` is the
indeterminate initial content of the local `enable`, kept when `str_bool` fails. -/
def source_enable (s : State) (prm : String) (enable0 : Bool) : Nat × State :=
  let res := re_regex_device_enable prm.toList
  if res.1 ≠ 0 then (res.1, s)
  else
    let enable := (str_bool res.2.2.p).getD enable0
    (res.1, { s with auplayl := source_enable_loop res.2.1 enable s.auplayl })

/-! ## Observations used in the statements -/

/-- The peer pointer of the live source endpoint at address `p`. -/
def src_peer (s : State) (p : Nat) : Option (Option Nat) :=
  (deref s.ausrcl p).map (fun st => st.st_play)

/-- The peer pointer of the live playback endpoint at address `p`. -/
def play_peer (s : State) (p : Nat) : Option (Option Nat) :=
  (deref s.auplayl p).map (fun st => st.st_src)

/-- The enabled flag of a playback endpoint's mixer source. -/
def enabled_of (st : auplay_st) : Option Bool :=
  st.aumix_src.map (fun m => m.enabled)

/-- The timestamps of the frames handed to the read and write handlers. -/
def stamp : Event → Option Nat
  | Event.rh _ af _ => some af.timestamp
  | Event.wh _ af _ => some af.timestamp
  | Event.aumix_source_put _ _ _ => none

/-! ## Example states -/

/-- A playback endpoint on device `spk` with key 42, a two-sample buffer and no peer. -/
def exPlay : auplay_st :=
  { prm := { fmt := 0, srate := 48000, ch := 2 }, wh := 7, sampv := [0, 0],
    aumix_src := some { handle := 100, enabled := false }, st_src := none, arg := 42,
    ts := 0, device := some "spk" }

/-- A mono source endpoint on device `mic` with key 42 and no peer. -/
def exSrc : ausrc_st :=
  { prm := { fmt := 3, srate := 8000, ch := 1 }, rh := 5, st_play := none, arg := 42,
    device := some "mic" }

/-- No endpoint at all. -/
def exEmpty : State := { auplayl := [], ausrcl := [] }

/-- One unpaired playback endpoint at address 1. -/
def exUnpaired : State := { auplayl := [(1, exPlay)], ausrcl := [] }

/-- Playback endpoint 1 and source endpoint 10, mutually paired. -/
def exPaired : State :=
  { auplayl := [(1, { exPlay with st_src := some 10 })],
    ausrcl := [(10, { exSrc with st_play := some 1 })] }

/-- The paired endpoints of `exPaired` with the playback's mixer source enabled. -/
def exPairedOn : State :=
  { auplayl := [(1, { exPlay with st_src := some 10,
                                  aumix_src := some { handle := 100, enabled := true } })],
    ausrcl := [(10, { exSrc with st_play := some 1 })] }

/-- Two unpaired playback endpoints, on devices `spk` and `other`, both disabled. -/
def exTwo : State :=
  { auplayl := [(1, exPlay),
      (2, { exPlay with arg := 43, device := some "other",
                        aumix_src := some { handle := 101, enabled := false } })],
    ausrcl := [] }

/-- A write handler that leaves the samples 9, 9 in the buffer. -/
def exCb : Callbacks := { wh := fun _ _ _ => [9, 9] }

/-! ## The registry match as the specification words it -/

/-- Specification of `registerSource`: scan the playback collection in insertion order
and return the first entry whose key equals `key`, if any. -/
def first_play_with_key (l : List (Nat × auplay_st)) (key : Nat) : Option Nat :=
  (l.find? (fun e => decide (e.2.arg = key))).map Prod.fst

/-- Specification of `registerPlayback`: the same scan over the source collection. -/
def first_src_with_key (l : List (Nat × ausrc_st)) (key : Nat) : Option Nat :=
  (l.find? (fun e => decide (e.2.arg = key))).map Prod.fst

/-- Three playback endpoints with keys 7, 42, 42 and two sources with keys 8, 42. -/
def exThree : State :=
  { auplayl := [(1, { exPlay with arg := 7 }), (2, exPlay), (3, exPlay)],
    ausrcl := [(10, { exSrc with arg := 8 }), (11, exSrc)] }

/-! ## Projections used in the frame statements -/

/-- A playback endpoint with the enabled flag of its mixer source blanked: what is left
is the parameters, handler, buffer, mixer-source handle, peer pointer, key, timestamp
and device name. -/
def without_enabled (st : auplay_st) : auplay_st :=
  { st with aumix_src := st.aumix_src.map (fun m => { m with enabled := false }) }

/-- A playback endpoint with timestamp and buffer content blanked. -/
def without_ts_buf (st : auplay_st) : auplay_st :=
  { st with ts := 0, sampv := [] }

/-- A playback endpoint with its peer pointer blanked. -/
def play_without_peer (st : auplay_st) : auplay_st :=
  { st with st_src := none }

/-- A source endpoint with its peer pointer blanked. -/
def src_without_peer (st : ausrc_st) : ausrc_st :=
  { st with st_play := none }

/-- The address and buffer size of every playback endpoint, in registry order. -/
def buf_sizes (s : State) : List (Nat × Nat) :=
  s.auplayl.map (fun e => (e.1, e.2.sampv.length))

/-- The command `aumix_enable d,false` followed by `aumix_enable d,true`; `e0` and `e1`
are the indeterminate initial contents of `enable` in the two calls. -/
def disable_then_enable (s : State) (d : List Char) (e0 e1 : Bool) : State :=
  (source_enable (source_enable s (String.mk (d ++ ",false".toList)) e0).2
    (String.mk (d ++ ",true".toList)) e1).2

/-! ## Lemmas on the helpers -/

theorem deref_append_fresh {α : Type} (l : List (Nat × α)) (p : Nat) (x : α)
    (h : ∀ e ∈ l, e.1 ≠ p) : deref (l ++ [(p, x)]) p = some x := by
  induction l with
  | nil => simp [deref]
  | cons a t ih =>
    obtain ⟨q, y⟩ := a
    have hq : q ≠ p := h (q, y) (List.mem_cons_self _ _)
    have ht : ∀ e ∈ t, e.1 ≠ p := fun e he => h e (List.mem_cons_of_mem _ he)
    simp [deref, hq, ih ht]

theorem src_scan_no_match (st k : Nat) (l : List (Nat × auplay_st))
    (h : ∀ e ∈ l, e.2.arg ≠ k) : src_scan st k l = (l, none) := by
  induction l with
  | nil => rfl
  | cons a t ih =>
    obtain ⟨q, y⟩ := a
    have hq : ¬ k = y.arg := fun e => h (q, y) (List.mem_cons_self _ _) e.symm
    have ht : ∀ e ∈ t, e.2.arg ≠ k := fun e he => h e (List.mem_cons_of_mem _ he)
    simp [src_scan, hq, ih ht]

theorem play_scan_no_match (st k : Nat) (l : List (Nat × ausrc_st))
    (h : ∀ e ∈ l, e.2.arg ≠ k) : play_scan st k l = (l, none) := by
  induction l with
  | nil => rfl
  | cons a t ih =>
    obtain ⟨q, y⟩ := a
    have hq : ¬ k = y.arg := fun e => h (q, y) (List.mem_cons_self _ _) e.symm
    have ht : ∀ e ∈ t, e.2.arg ≠ k := fun e he => h e (List.mem_cons_of_mem _ he)
    simp [play_scan, hq, ih ht]

theorem src_scan_append_hit (st k p : Nat) (x : auplay_st) (l : List (Nat × auplay_st))
    (h : ∀ e ∈ l, e.2.arg ≠ k) (hx : x.arg = k) :
    src_scan st k (l ++ [(p, x)]) = (l ++ [(p, { x with st_src := some st })], some p) := by
  induction l with
  | nil => simp [src_scan, hx]
  | cons a t ih =>
    obtain ⟨q, y⟩ := a
    have hq : ¬ k = y.arg := fun e => h (q, y) (List.mem_cons_self _ _) e.symm
    have ht : ∀ e ∈ t, e.2.arg ≠ k := fun e he => h e (List.mem_cons_of_mem _ he)
    simp [src_scan, hq, ih ht]

theorem play_scan_append_hit (st k p : Nat) (x : ausrc_st) (l : List (Nat × ausrc_st))
    (h : ∀ e ∈ l, e.2.arg ≠ k) (hx : x.arg = k) :
    play_scan st k (l ++ [(p, x)]) = (l ++ [(p, { x with st_play := some st })], some p) := by
  induction l with
  | nil => simp [play_scan, hx]
  | cons a t ih =>
    obtain ⟨q, y⟩ := a
    have hq : ¬ k = y.arg := fun e => h (q, y) (List.mem_cons_self _ _) e.symm
    have ht : ∀ e ∈ t, e.2.arg ≠ k := fun e he => h e (List.mem_cons_of_mem _ he)
    simp [play_scan, hq, ih ht]

theorem deref_store_self {α : Type} (l : List (Nat × α)) (p : Nat) (x y : α)
    (h : deref l p = some x) : deref (store l p y) p = some y := by
  induction l with
  | nil => simp [deref] at h
  | cons a t ih =>
    obtain ⟨q, z⟩ := a
    by_cases hq : q = p
    · simp [store, deref, hq]
    · simp only [deref, hq, if_false] at h
      simp [store, deref, hq, ih h]

/-- One tick of a paired endpoint: the result of `mix_handler` in closed form. -/
theorem mix_handler_paired (cb : Callbacks) (s : State) (sampv : List Int) (sampc p sp : Nat)
    (st_play : auplay_st) (st_src : ausrc_st) (hp : deref s.auplayl p = some st_play)
    (hpeer : st_play.st_src = some sp) (hs : deref s.ausrcl sp = some st_src) :
    mix_handler cb s sampv sampc p =
      .ok ({ s with
              auplayl := store s.auplayl p
                { st_play with
                  sampv := cb.wh st_play.wh
                    { fmt := st_play.prm.fmt, sampv := st_play.sampv, sampc := sampc,
                      srate := st_play.prm.srate, ch := st_play.prm.ch,
                      timestamp := st_play.ts } st_play.arg
                  ts := (st_play.ts + PTIME * 1000) % 2 ^ 64 } },
        [Event.rh st_src.rh
            { fmt := st_src.prm.fmt, sampv := sampv, sampc := sampc, srate := st_src.prm.srate,
              ch := st_play.prm.ch, timestamp := st_play.ts } st_src.arg,
          Event.wh st_play.wh
            { fmt := st_play.prm.fmt, sampv := st_play.sampv, sampc := sampc,
              srate := st_play.prm.srate, ch := st_play.prm.ch, timestamp := st_play.ts }
            st_play.arg,
          Event.aumix_source_put (st_play.aumix_src.map (fun m => m.handle))
            (cb.wh st_play.wh
              { fmt := st_play.prm.fmt, sampv := st_play.sampv, sampc := sampc,
                srate := st_play.prm.srate, ch := st_play.prm.ch, timestamp := st_play.ts }
              st_play.arg) sampc]) := by
  simp [mix_handler, hp, hpeer, hs, auframe_init]

/-- Repeated ticks of a paired endpoint: every tick succeeds and tick `n` hands both
handlers the starting timestamp plus `n * 20000`, modulo 2^64. -/
theorem run_ticks_paired (cb : Callbacks) (p sp : Nat) (st_src : ausrc_st)
    (ticks : List (List Int × Nat)) :
    ∀ (s : State) (st_play : auplay_st), deref s.auplayl p = some st_play →
      st_play.st_src = some sp → deref s.ausrcl sp = some st_src → st_play.ts < 2 ^ 64 →
      ∃ s1 evss, run_ticks cb p s ticks = .ok (s1, evss) ∧ evss.length = ticks.length ∧
        ∀ n, n < ticks.length →
          (evss[n]?).map (List.filterMap stamp) =
            some [(st_play.ts + n * 20000) % 2 ^ 64, (st_play.ts + n * 20000) % 2 ^ 64] := by
  induction ticks with
  | nil =>
    intro s st_play _ _ _ _
    exact ⟨s, [], rfl, rfl, fun n hn => absurd hn (Nat.not_lt_zero n)⟩
  | cons t rest ih =>
    intro s st_play hp hpeer hs hts
    obtain ⟨sampv, sampc⟩ := t
    have hm := mix_handler_paired cb s sampv sampc p sp st_play st_src hp hpeer hs
    have hts1 : (st_play.ts + PTIME * 1000) % 2 ^ 64 < 2 ^ 64 := Nat.mod_lt _ (Nat.two_pow_pos 64)
    obtain ⟨s1, evss, hrun, hlen, hst⟩ :=
      ih { s with
            auplayl := store s.auplayl p
              { st_play with
                sampv := cb.wh st_play.wh
                  { fmt := st_play.prm.fmt, sampv := st_play.sampv, sampc := sampc,
                    srate := st_play.prm.srate, ch := st_play.prm.ch,
                    timestamp := st_play.ts } st_play.arg
                ts := (st_play.ts + PTIME * 1000) % 2 ^ 64 } }
        { st_play with
          sampv := cb.wh st_play.wh
            { fmt := st_play.prm.fmt, sampv := st_play.sampv, sampc := sampc,
              srate := st_play.prm.srate, ch := st_play.prm.ch,
              timestamp := st_play.ts } st_play.arg
          ts := (st_play.ts + PTIME * 1000) % 2 ^ 64 }
        (deref_store_self _ _ _ _ hp) hpeer hs hts1
    simp only [run_ticks, hm, hrun]
    refine ⟨_, _, rfl, ?_, ?_⟩
    · simp [hlen]
    · intro n hn
      cases n with
      | zero =>
        have h0 : st_play.ts % 18446744073709551616 = st_play.ts := Nat.mod_eq_of_lt hts
        simp [stamp, h0]
      | succ m =>
        have hm1 : m < rest.length := by simpa using hn
        have h1 := hst m hm1
        have h2 : ((st_play.ts + PTIME * 1000) % 2 ^ 64 + m * 20000) % 2 ^ 64 =
            (st_play.ts + (m + 1) * 20000) % 2 ^ 64 := by
          simp only [PTIME]
          omega
        simp only [List.getElem?_cons_succ]
        rw [h1, h2]

theorem deref_list_unlink_self {α : Type} (l : List (Nat × α)) (p : Nat) :
    deref (list_unlink l p) p = none := by
  induction l with
  | nil => rfl
  | cons a t ih =>
    obtain ⟨q, z⟩ := a
    simp only [list_unlink] at ih ⊢
    by_cases hq : q = p
    · simpa [hq] using ih
    · have h1 : deref (List.filter (fun e => !decide (e.1 = p)) t) p = none := by
        simpa using ih
      simp [hq, deref, h1]

theorem deref_middle {α : Type} (l1 l2 : List (Nat × α)) (p : Nat) (x : α)
    (h : ∀ e ∈ l1, e.1 ≠ p) : deref (l1 ++ (p, x) :: l2) p = some x := by
  induction l1 with
  | nil => simp [deref]
  | cons a t ih =>
    obtain ⟨q, y⟩ := a
    have hq : q ≠ p := h (q, y) (List.mem_cons_self _ _)
    have ht : ∀ e ∈ t, e.1 ≠ p := fun e he => h e (List.mem_cons_of_mem _ he)
    simp [deref, hq, ih ht]

theorem deref_append_of_some {α : Type} (l r : List (Nat × α)) (p : Nat) (x : α)
    (h : deref l p = some x) : deref (l ++ r) p = some x := by
  induction l with
  | nil => simp [deref] at h
  | cons a t ih =>
    obtain ⟨q, y⟩ := a
    by_cases hq : q = p
    · simpa [deref, hq] using h
    · simp only [deref, hq, if_false] at h
      simp [deref, hq, ih h]

theorem src_scan_middle (st k p : Nat) (x : auplay_st) (l1 l2 : List (Nat × auplay_st))
    (h : ∀ e ∈ l1, e.2.arg ≠ k) (hx : x.arg = k) :
    src_scan st k (l1 ++ (p, x) :: l2) =
      (l1 ++ (p, { x with st_src := some st }) :: l2, some p) := by
  induction l1 with
  | nil => simp [src_scan, hx]
  | cons a t ih =>
    obtain ⟨q, y⟩ := a
    have hq : ¬ k = y.arg := fun e => h (q, y) (List.mem_cons_self _ _) e.symm
    have ht : ∀ e ∈ t, e.2.arg ≠ k := fun e he => h e (List.mem_cons_of_mem _ he)
    simp [src_scan, hq, ih ht]

theorem play_scan_middle (st k p : Nat) (x : ausrc_st) (l1 l2 : List (Nat × ausrc_st))
    (h : ∀ e ∈ l1, e.2.arg ≠ k) (hx : x.arg = k) :
    play_scan st k (l1 ++ (p, x) :: l2) =
      (l1 ++ (p, { x with st_play := some st }) :: l2, some p) := by
  induction l1 with
  | nil => simp [play_scan, hx]
  | cons a t ih =>
    obtain ⟨q, y⟩ := a
    have hq : ¬ k = y.arg := fun e => h (q, y) (List.mem_cons_self _ _) e.symm
    have ht : ∀ e ∈ t, e.2.arg ≠ k := fun e he => h e (List.mem_cons_of_mem _ he)
    simp [play_scan, hq, ih ht]

/-! ## Pairing at creation -/

/-- C1: in a state where no endpoint carries key `k`, creating a source endpoint and a
playback endpoint that both carry `k` (every allocation succeeding, at addresses not in
use) leaves them mutually paired, whether the source or the playback is created first. -/
theorem C1_pairing_either_order (s : State) (k ps pp rh wh : Nat) (sprm : ausrc_prm)
    (pprm : auplay_prm) (sdev pdev : Option String) (msrc : aumix_source)
    (hkp : ∀ e ∈ s.auplayl, e.2.arg ≠ k) (hks : ∀ e ∈ s.ausrcl, e.2.arg ≠ k)
    (hfp : ∀ e ∈ s.auplayl, e.1 ≠ pp) (hfs : ∀ e ∈ s.ausrcl, e.1 ≠ ps) :
    ((src_alloc s true true (some sprm) sdev rh k (some ps)).err = 0 ∧
      (src_alloc s true true (some sprm) sdev rh k (some ps)).stp = some ps ∧
      (play_alloc (src_alloc s true true (some sprm) sdev rh k (some ps)).state
          true true (some pprm) pdev wh k (some pp) true 0 msrc).err = 0 ∧
      (play_alloc (src_alloc s true true (some sprm) sdev rh k (some ps)).state
          true true (some pprm) pdev wh k (some pp) true 0 msrc).stp = some pp ∧
      src_peer (play_alloc (src_alloc s true true (some sprm) sdev rh k (some ps)).state
          true true (some pprm) pdev wh k (some pp) true 0 msrc).state ps = some (some pp) ∧
      play_peer (play_alloc (src_alloc s true true (some sprm) sdev rh k (some ps)).state
          true true (some pprm) pdev wh k (some pp) true 0 msrc).state pp = some (some ps)) ∧
    ((play_alloc s true true (some pprm) pdev wh k (some pp) true 0 msrc).err = 0 ∧
      (play_alloc s true true (some pprm) pdev wh k (some pp) true 0 msrc).stp = some pp ∧
      (src_alloc (play_alloc s true true (some pprm) pdev wh k (some pp) true 0 msrc).state
          true true (some sprm) sdev rh k (some ps)).err = 0 ∧
      (src_alloc (play_alloc s true true (some pprm) pdev wh k (some pp) true 0 msrc).state
          true true (some sprm) sdev rh k (some ps)).stp = some ps ∧
      src_peer (src_alloc (play_alloc s true true (some pprm) pdev wh k (some pp) true 0 msrc).state
          true true (some sprm) sdev rh k (some ps)).state ps = some (some pp) ∧
      play_peer (src_alloc (play_alloc s true true (some pprm) pdev wh k (some pp) true 0 msrc).state
          true true (some sprm) sdev rh k (some ps)).state pp = some (some ps)) := by
  have hs := play_scan_append_hit pp k ps
    { prm := sprm, rh := rh, st_play := none, arg := k, device := sdev } s.ausrcl hks rfl
  have hp := src_scan_append_hit ps k pp
    { prm := pprm, wh := wh, sampv := List.replicate (SRATE * CH * PTIME / 1000) 0,
      aumix_src := some msrc, st_src := none, arg := k, ts := 0, device := pdev }
    s.auplayl hkp rfl
  refine ⟨⟨rfl, rfl, rfl, rfl, ?_, ?_⟩, ⟨rfl, rfl, rfl, rfl, ?_, ?_⟩⟩
  · simp [src_alloc, play_alloc, src_peer, list_append, src_scan_no_match _ _ _ hkp, hs,
      deref_append_fresh _ _ _ hfs]
  · simp [src_alloc, play_alloc, play_peer, list_append, src_scan_no_match _ _ _ hkp, hs,
      deref_append_fresh _ _ _ hfp]
  · simp [src_alloc, play_alloc, src_peer, list_append, play_scan_no_match _ _ _ hks, hp,
      deref_append_fresh _ _ _ hfs]
  · simp [src_alloc, play_alloc, play_peer, list_append, play_scan_no_match _ _ _ hks, hp,
      deref_append_fresh _ _ _ hfp]

/-- Witness for C1: a registry that already holds endpoints with other keys. -/
theorem C1_pairing_either_order_witness :
    src_peer (play_alloc (src_alloc
        { auplayl := [(1, { exPlay with arg := 7 })], ausrcl := [(10, { exSrc with arg := 8 })] }
        true true (some { fmt := 3, srate := 8000, ch := 1 }) (some "mic") 5 42 (some 11)).state
        true true (some { fmt := 0, srate := 48000, ch := 2 }) (some "spk") 7 42 (some 2) true 0
        { handle := 101, enabled := false }).state 11 = some (some 2) ∧
    play_peer (src_alloc (play_alloc
        { auplayl := [(1, { exPlay with arg := 7 })], ausrcl := [(10, { exSrc with arg := 8 })] }
        true true (some { fmt := 0, srate := 48000, ch := 2 }) (some "spk") 7 42 (some 2) true 0
        { handle := 101, enabled := false }).state
        true true (some { fmt := 3, srate := 8000, ch := 1 }) (some "mic") 5 42 (some 11)).state
        2 = some (some 11) :=
  have h := C1_pairing_either_order
    { auplayl := [(1, { exPlay with arg := 7 })], ausrcl := [(10, { exSrc with arg := 8 })] }
    42 11 2 5 7 { fmt := 3, srate := 8000, ch := 1 } { fmt := 0, srate := 48000, ch := 2 }
    (some "mic") (some "spk") { handle := 101, enabled := false }
    (by simp [exPlay]) (by simp [exSrc]) (by simp) (by simp)
  ⟨h.1.2.2.2.2.1, h.2.2.2.2.2.2⟩

/-! ## Tick dispatch -/

/-- C2 (the code departs from the claim): a playback endpoint created while no source
carries its key has no peer, and a tick on it stops with a null-pointer fault at the
first statement of `mix_handler`; no handler is invoked. -/
theorem C2_unpaired_tick_faults (cb : Callbacks) (prm : auplay_prm) (device : Option String)
    (wh k p : Nat) (msrc : aumix_source) (sampv : List Int) (sampc : Nat) :
    play_peer (play_alloc exEmpty true true (some prm) device wh k (some p) true 0 msrc).state p
        = some none ∧
      mix_handler cb (play_alloc exEmpty true true (some prm) device wh k (some p) true 0 msrc).state
        sampv sampc p = .error Fault.null_deref := by
  constructor
  · simp [play_alloc, exEmpty, play_scan, list_append, play_peer, deref]
  · simp only [play_alloc, exEmpty, play_scan, list_append, mix_handler, deref, List.nil_append,
      if_true, if_false, ne_eq, not_true_eq_false]

/-- C3: one tick of a playback endpoint with a live peer makes exactly three external
calls, in this order: the peer's read handler, the endpoint's write handler, and
`aumix_source_put` of the endpoint's own buffer with the tick's sample count.  Both
frames carry the timestamp from before the tick; the endpoint's timestamp afterwards is
that value plus 20000 (modulo 2^64). -/
theorem C3_paired_tick_calls (cb : Callbacks) (s : State) (sampv : List Int) (sampc p sp : Nat)
    (st_play : auplay_st) (st_src : ausrc_st) (hp : deref s.auplayl p = some st_play)
    (hpeer : st_play.st_src = some sp) (hs : deref s.ausrcl sp = some st_src) :
    ∃ s1 af1 af2 st1,
      mix_handler cb s sampv sampc p =
        .ok (s1, [Event.rh st_src.rh af1 st_src.arg, Event.wh st_play.wh af2 st_play.arg,
          Event.aumix_source_put (st_play.aumix_src.map (fun m => m.handle)) st1.sampv sampc]) ∧
      deref s1.auplayl p = some st1 ∧
      st1.sampv = cb.wh st_play.wh af2 st_play.arg ∧
      af1.timestamp = st_play.ts ∧ af2.timestamp = st_play.ts ∧
      st1.ts = (st_play.ts + 20000) % 2 ^ 64 := by
  have h := mix_handler_paired cb s sampv sampc p sp st_play st_src hp hpeer hs
  exact ⟨_, _, _, { st_play with
      sampv := cb.wh st_play.wh
        { fmt := st_play.prm.fmt, sampv := st_play.sampv, sampc := sampc,
          srate := st_play.prm.srate, ch := st_play.prm.ch, timestamp := st_play.ts }
        st_play.arg
      ts := (st_play.ts + PTIME * 1000) % 2 ^ 64 },
    h, deref_store_self _ _ _ _ hp, rfl, rfl, rfl, by simp [PTIME]⟩

/-- Witness for C3: the paired example endpoints. -/
theorem C3_paired_tick_calls_witness :
    ∃ s1 af1 af2 st1,
      mix_handler exCb exPaired [1, 2] 2 1 =
        .ok (s1, [Event.rh 5 af1 42, Event.wh 7 af2 42,
          Event.aumix_source_put (some 100) st1.sampv 2]) ∧
      deref s1.auplayl 1 = some st1 ∧
      st1.sampv = [9, 9] ∧
      af1.timestamp = 0 ∧ af2.timestamp = 0 ∧
      st1.ts = (0 + 20000) % 2 ^ 64 :=
  C3_paired_tick_calls exCb exPaired [1, 2] 2 1 10 { exPlay with st_src := some 10 }
    { exSrc with st_play := some 1 } rfl rfl rfl

/-- C4: a playback endpoint created by `play_alloc` starts with timestamp 0; one tick of a
paired endpoint stamps both frames with the current timestamp and then adds 20000 to it
(modulo 2^64); hence, starting from timestamp 0, every tick of a run succeeds and tick
`n` (counted from 0) with `n * 20000 < 2^64` hands timestamp `n * 20000` to both
handlers. -/
theorem C4_timestamps (cb : Callbacks) (s0 : State) (prm : auplay_prm) (device : Option String)
    (wh k pp : Nat) (msrc : aumix_source) (hfresh : ∀ e ∈ s0.auplayl, e.1 ≠ pp)
    (s : State) (p sp : Nat) (st_play : auplay_st) (st_src : ausrc_st)
    (hp : deref s.auplayl p = some st_play) (hpeer : st_play.st_src = some sp)
    (hs : deref s.ausrcl sp = some st_src) (hts : st_play.ts < 2 ^ 64)
    (ticks : List (List Int × Nat)) :
    (deref (play_alloc s0 true true (some prm) device wh k (some pp) true 0 msrc).state.auplayl
        pp).map (fun st => st.ts) = some 0 ∧
    (∀ sampv sampc, ∃ s1 evs st1, mix_handler cb s sampv sampc p = .ok (s1, evs) ∧
      evs.filterMap stamp = [st_play.ts, st_play.ts] ∧
      deref s1.auplayl p = some st1 ∧ st1.ts = (st_play.ts + 20000) % 2 ^ 64) ∧
    (st_play.ts = 0 →
      ∃ s1 evss, run_ticks cb p s ticks = .ok (s1, evss) ∧ evss.length = ticks.length ∧
        ∀ n, n < ticks.length → n * 20000 < 2 ^ 64 →
          (evss[n]?).map (List.filterMap stamp) = some [n * 20000, n * 20000]) := by
  refine ⟨?_, ?_, ?_⟩
  · simp [play_alloc, list_append, deref_append_fresh _ _ _ hfresh]
  · intro sampv sampc
    refine ⟨_, _, _, mix_handler_paired cb s sampv sampc p sp st_play st_src hp hpeer hs, ?_,
      deref_store_self _ _ _ _ hp, ?_⟩
    · simp [stamp]
    · simp [PTIME]
  · intro h0
    obtain ⟨s1, evss, hrun, hlen, hst⟩ :=
      run_ticks_paired cb p sp st_src ticks s st_play hp hpeer hs hts
    refine ⟨s1, evss, hrun, hlen, ?_⟩
    intro n hn hb
    have h1 := hst n hn
    rw [h0, Nat.zero_add, Nat.mod_eq_of_lt hb] at h1
    exact h1

/-- Witness for C4: the scenario of the specification, two ticks of the paired example
endpoints deliver timestamps 0 and 20000. -/
theorem C4_timestamps_witness :
    ∃ s1 evss, run_ticks exCb 1 exPaired [([1, 2], 2), ([3, 4], 2)] = .ok (s1, evss) ∧
      evss.length = 2 ∧
      ∀ n, n < 2 → n * 20000 < 2 ^ 64 →
        (evss[n]?).map (List.filterMap stamp) = some [n * 20000, n * 20000] :=
  (C4_timestamps exCb exEmpty { fmt := 0, srate := 48000, ch := 2 } (some "spk") 7 42 1
    { handle := 100, enabled := false } (by simp [exEmpty]) exPaired 1 10
    { exPlay with st_src := some 10 } { exSrc with st_play := some 1 } rfl rfl rfl
    (by simp [exPlay]) [([1, 2], 2), ([3, 4], 2)]).2.2 rfl

/-! ## Destruction -/

/-- C5 (the code departs from the claim): `auplay_destructor` takes the endpoint out of
`auplayl` and writes nothing else, so the source registry, with every `st_play`, is as
before.  On the paired example the source keeps pointing at the destroyed playback
endpoint, and destroying that source afterwards reads through the stale pointer. -/
theorem C5_play_destructor_keeps_peer_pointer :
    (∀ (s : State) (pp : Nat), deref (auplay_destructor s pp).auplayl pp = none ∧
      (auplay_destructor s pp).ausrcl = s.ausrcl) ∧
    (auplay_destructor exPaired 1).auplayl = [] ∧
    src_peer exPaired 10 = some (some 1) ∧ play_peer exPaired 1 = some (some 10) ∧
    src_peer (auplay_destructor exPaired 1) 10 = some (some 1) ∧
    ausrc_destructor (auplay_destructor exPaired 1) 10 = .error Fault.dangling := by
  refine ⟨fun s pp => ⟨deref_list_unlink_self _ _, rfl⟩, ?_, ?_, ?_, ?_, ?_⟩ <;> rfl

/-- C6 (the code departs from the claim): on the paired example `ausrc_destructor`
disables the playback endpoint's mixer source and unlinks the source endpoint, but the
playback endpoint's `st_src` still holds the destroyed source's address; a later tick
on it reads through that stale pointer and no write handler runs. -/
theorem C6_src_destructor_keeps_peer_pointer :
    src_peer exPairedOn 10 = some (some 1) ∧ play_peer exPairedOn 1 = some (some 10) ∧
    ausrc_destructor exPairedOn 10 =
      .ok { auplayl := [(1, { exPlay with st_src := some 10 })], ausrcl := [] } ∧
    play_peer { auplayl := [(1, { exPlay with st_src := some 10 })], ausrcl := [] } 1 =
      some (some 10) ∧
    ∀ (cb : Callbacks) (sampv : List Int) (sampc : Nat),
      mix_handler cb { auplayl := [(1, { exPlay with st_src := some 10 })], ausrcl := [] }
        sampv sampc 1 = .error Fault.dangling := by
  refine ⟨rfl, rfl, rfl, rfl, fun _ _ _ => rfl⟩

/-! ## Control command -/

/-- C7 (the code departs from the claim): the command argument `spk,true` enables the
endpoint on device `other` as well as the one on `spk`, because the loop skips an
endpoint when `str_cmp` reports equality and compares against the whole argument; the
only endpoint left untouched is one whose device name is the entire argument. -/
theorem C7_source_enable_toggles_other_devices :
    exTwo.auplayl.map (fun e => (e.2.device, enabled_of e.2)) =
      [(some "spk", some false), (some "other", some false)] ∧
    (source_enable exTwo "spk,true" false).1 = 0 ∧
    (source_enable exTwo "spk,true" false).2.auplayl.map (fun e => (e.2.device, enabled_of e.2)) =
      [(some "spk", some true), (some "other", some true)] ∧
    (source_enable { auplayl := [(3, { exPlay with device := some "spk,true" })], ausrcl := [] }
        "spk,true" false).2.auplayl.map (fun e => (e.2.device, enabled_of e.2)) =
      [(some "spk,true", some false)] := by
  refine ⟨by decide, by decide, by decide, by decide⟩

/-! ## Frames -/

/-- C8 (the code departs from the claim): the frame handed to the peer's read handler
takes format and sample rate from the peer but the channel count from the playback
endpoint; with a mono source paired to a stereo playback the read frame says 2
channels. -/
theorem C8_read_frame_channel_count :
    (deref exPaired.ausrcl 10).map (fun st => st.prm) = some { fmt := 3, srate := 8000, ch := 1 } ∧
    (deref exPaired.auplayl 1).map (fun st => st.prm) =
      some { fmt := 0, srate := 48000, ch := 2 } ∧
    ∃ s1 ev2 ev3, mix_handler exCb exPaired [1, 2] 2 1 =
      .ok (s1, [Event.rh 5 { fmt := 3, sampv := [1, 2], sampc := 2, srate := 8000, ch := 2,
                             timestamp := 0 } 42, ev2, ev3]) :=
  ⟨rfl, rfl, _, _, _, rfl⟩

/-- C9, counterexample: with engine samples 1, 2 and an own buffer holding 0, 0 the write
handler's frame carries 0, 0, not the samples of the read handler's frame. -/
theorem C9_write_frame_samples_counterexample :
    mix_handler exCb exPaired [1, 2] 2 1 =
      .ok ({ auplayl := [(1, { exPlay with st_src := some 10, sampv := [9, 9], ts := 20000 })],
             ausrcl := [(10, { exSrc with st_play := some 1 })] },
        [Event.rh 5 { fmt := 3, sampv := [1, 2], sampc := 2, srate := 8000, ch := 2,
                      timestamp := 0 } 42,
          Event.wh 7 { fmt := 0, sampv := [0, 0], sampc := 2, srate := 48000, ch := 2,
                       timestamp := 0 } 42,
          Event.aumix_source_put (some 100) [9, 9] 2]) ∧
    ([0, 0] : List Int) ≠ [1, 2] :=
  ⟨rfl, by decide⟩

/-- C9, amended: in one tick of a paired endpoint the frame handed to the write handler
carries the playback endpoint's own format tag, sample rate and channel count, the
endpoint's own sample buffer (not the engine's vector), and the same sample count and
timestamp as the frame built for the read handler, which carries the engine's samples. -/
theorem C9_write_frame_own_buffer (cb : Callbacks) (s : State) (sampv : List Int)
    (sampc p sp : Nat) (st_play : auplay_st) (st_src : ausrc_st)
    (hp : deref s.auplayl p = some st_play) (hpeer : st_play.st_src = some sp)
    (hs : deref s.ausrcl sp = some st_src) :
    ∃ s1 af1 af2 ev3,
      mix_handler cb s sampv sampc p =
        .ok (s1, [Event.rh st_src.rh af1 st_src.arg, Event.wh st_play.wh af2 st_play.arg, ev3]) ∧
      af2.fmt = st_play.prm.fmt ∧ af2.srate = st_play.prm.srate ∧ af2.ch = st_play.prm.ch ∧
      af2.sampv = st_play.sampv ∧ af1.sampv = sampv ∧
      af2.sampc = sampc ∧ af1.sampc = sampc ∧
      af2.timestamp = st_play.ts ∧ af1.timestamp = st_play.ts :=
  ⟨_, _, _, _, mix_handler_paired cb s sampv sampc p sp st_play st_src hp hpeer hs,
    rfl, rfl, rfl, rfl, rfl, rfl, rfl, rfl, rfl⟩

/-- Witness for the amended C9: the paired example endpoints. -/
theorem C9_write_frame_own_buffer_witness :
    ∃ s1 af1 af2 ev3,
      mix_handler exCb exPaired [1, 2] 2 1 =
        .ok (s1, [Event.rh 5 af1 42, Event.wh 7 af2 42, ev3]) ∧
      af2.fmt = 0 ∧ af2.srate = 48000 ∧ af2.ch = 2 ∧
      af2.sampv = [0, 0] ∧ af1.sampv = [1, 2] ∧
      af2.sampc = 2 ∧ af1.sampc = 2 ∧
      af2.timestamp = 0 ∧ af1.timestamp = 0 :=
  C9_write_frame_own_buffer exCb exPaired [1, 2] 2 1 10 { exPlay with st_src := some 10 }
    { exSrc with st_play := some 1 } rfl rfl rfl

/-! ## A second endpoint with a key already in use -/

/-- C10, counterexample: with playback 1 and source 10 paired under key 42, a second
source created with key 42 at address 11 is paired with playback 1, whose peer pointer
now names 11; and a second playback created with key 42 at address 2 is paired with
source 10, whose peer pointer now names 2. -/
theorem C10_second_endpoint_counterexample :
    src_peer exPaired 10 = some (some 1) ∧ play_peer exPaired 1 = some (some 10) ∧
    src_peer (src_alloc exPaired true true (some { fmt := 3, srate := 8000, ch := 1 })
      (some "mic2") 6 42 (some 11)).state 11 = some (some 1) ∧
    play_peer (src_alloc exPaired true true (some { fmt := 3, srate := 8000, ch := 1 })
      (some "mic2") 6 42 (some 11)).state 1 = some (some 11) ∧
    play_peer (play_alloc exPaired true true (some { fmt := 0, srate := 48000, ch := 2 })
      (some "spk2") 8 42 (some 2) true 0 { handle := 101, enabled := false }).state 2 =
        some (some 10) ∧
    src_peer (play_alloc exPaired true true (some { fmt := 0, srate := 48000, ch := 2 })
      (some "spk2") 8 42 (some 2) true 0 { handle := 101, enabled := false }).state 10 =
        some (some 2) := by
  refine ⟨rfl, rfl, rfl, rfl, rfl, rfl⟩

/-- C10, amended: let playback `P` (at `pp`) and source `S1` (at `s1`) be mutually paired
under key `k`, each the first endpoint of its registry that carries `k`.  Creating a
second source `S2` with key `k` pairs it with `P` (`S2.peer = P`, `P.peer = S2`) while
`S1.peer` stays `P`; creating a second playback `P2` with key `k` pairs it with `S1`
(`P2.peer = S1`, `S1.peer = P2`) while `P.peer` stays `S1`. -/
theorem C10_second_endpoint_takes_pairing (s : State) (k pp s1 s2 p2 rh wh : Nat)
    (P : auplay_st) (S1 : ausrc_st) (l1 l2 : List (Nat × auplay_st))
    (m1 m2 : List (Nat × ausrc_st)) (sprm : ausrc_prm) (pprm : auplay_prm)
    (sdev pdev : Option String) (msrc : aumix_source)
    (hpl : s.auplayl = l1 ++ (pp, P) :: l2) (hl1 : ∀ e ∈ l1, e.1 ≠ pp ∧ e.2.arg ≠ k)
    (hsl : s.ausrcl = m1 ++ (s1, S1) :: m2) (hm1 : ∀ e ∈ m1, e.1 ≠ s1 ∧ e.2.arg ≠ k)
    (hPk : P.arg = k) (hSk : S1.arg = k) (hPs : P.st_src = some s1) (hSp : S1.st_play = some pp)
    (hf2 : ∀ e ∈ s.ausrcl, e.1 ≠ s2) (hfp2 : ∀ e ∈ s.auplayl, e.1 ≠ p2) :
    ((src_alloc s true true (some sprm) sdev rh k (some s2)).err = 0 ∧
      src_peer (src_alloc s true true (some sprm) sdev rh k (some s2)).state s2 = some (some pp) ∧
      play_peer (src_alloc s true true (some sprm) sdev rh k (some s2)).state pp = some (some s2) ∧
      src_peer (src_alloc s true true (some sprm) sdev rh k (some s2)).state s1 = some (some pp)) ∧
    ((play_alloc s true true (some pprm) pdev wh k (some p2) true 0 msrc).err = 0 ∧
      play_peer (play_alloc s true true (some pprm) pdev wh k (some p2) true 0 msrc).state p2 =
        some (some s1) ∧
      src_peer (play_alloc s true true (some pprm) pdev wh k (some p2) true 0 msrc).state s1 =
        some (some p2) ∧
      play_peer (play_alloc s true true (some pprm) pdev wh k (some p2) true 0 msrc).state pp =
        some (some s1)) := by
  have hsc := src_scan_middle s2 k pp P l1 l2 (fun e he => (hl1 e he).2) hPk
  have hpc := play_scan_middle p2 k s1 S1 m1 m2 (fun e he => (hm1 e he).2) hSk
  have hdp : deref s.auplayl pp = some P := by
    rw [hpl]; exact deref_middle _ _ _ _ (fun e he => (hl1 e he).1)
  have hds : deref s.ausrcl s1 = some S1 := by
    rw [hsl]; exact deref_middle _ _ _ _ (fun e he => (hm1 e he).1)
  refine ⟨⟨rfl, ?_, ?_, ?_⟩, ⟨rfl, ?_, ?_, ?_⟩⟩
  · simp [src_alloc, src_peer, list_append, deref_append_fresh _ _ _ hf2, hpl, hsc]
  · simp [src_alloc, play_peer, hpl, hsc, deref_middle _ _ _ _ (fun e he => (hl1 e he).1)]
  · simp [src_alloc, src_peer, list_append, deref_append_of_some _ _ _ _ hds, hSp]
  · simp [play_alloc, play_peer, list_append, deref_append_fresh _ _ _ hfp2, hsl, hpc]
  · simp [play_alloc, src_peer, hsl, hpc, deref_middle _ _ _ _ (fun e he => (hm1 e he).1)]
  · simp [play_alloc, play_peer, list_append, deref_append_of_some _ _ _ _ hdp, hPs]

/-- Witness for the amended C10: the paired example endpoints, second source at address
11 and second playback at address 2. -/
theorem C10_second_endpoint_takes_pairing_witness :
    src_peer (src_alloc exPaired true true (some { fmt := 3, srate := 8000, ch := 1 })
      (some "mic2") 6 42 (some 11)).state 10 = some (some 1) ∧
    play_peer (play_alloc exPaired true true (some { fmt := 0, srate := 48000, ch := 2 })
      (some "spk2") 8 42 (some 2) true 0 { handle := 101, enabled := false }).state 1 =
        some (some 10) :=
  have h := C10_second_endpoint_takes_pairing exPaired 42 1 10 11 2 6 8
    { exPlay with st_src := some 10 } { exSrc with st_play := some 1 } [] [] [] []
    { fmt := 3, srate := 8000, ch := 1 } { fmt := 0, srate := 48000, ch := 2 }
    (some "mic2") (some "spk2") { handle := 101, enabled := false }
    rfl (by simp) rfl (by simp) rfl rfl rfl rfl (by simp [exPaired]) (by simp [exPaired])
  ⟨h.1.2.2.2, h.2.2.2.2⟩

/-! ## Lemmas for failure paths and destruction -/

theorem list_unlink_fresh {α : Type} (l : List (Nat × α)) (p : Nat) (h : ∀ e ∈ l, e.1 ≠ p) :
    list_unlink l p = l := by
  unfold list_unlink
  rw [List.filter_eq_self]
  intro e he
  simpa using h e he

theorem store_same {α : Type} (l : List (Nat × α)) (p : Nat) (x : α)
    (h : deref l p = some x) : store l p x = l := by
  induction l with
  | nil => rfl
  | cons a t ih =>
    obtain ⟨q, z⟩ := a
    by_cases hq : q = p
    · simp only [deref, hq, if_true, Option.some.injEq] at h
      simp [store, hq, h]
    · simp only [deref, hq, if_false] at h
      simp [store, hq, ih h]

theorem deref_store_other {α : Type} (l : List (Nat × α)) (p q : Nat) (y : α) (h : q ≠ p) :
    deref (store l p y) q = deref l q := by
  induction l with
  | nil => rfl
  | cons a t ih =>
    obtain ⟨r, z⟩ := a
    by_cases hr : r = p
    · have hrq : ¬ p = q := fun e => h e.symm
      simp [store, deref, hr, hrq]
    · by_cases hrq : r = q
      · subst hrq
        simp [store, deref, hr]
      · simp [store, deref, hr, hrq, ih]

theorem store_map_fst {α : Type} (l : List (Nat × α)) (p : Nat) (y : α) :
    (store l p y).map Prod.fst = l.map Prod.fst := by
  induction l with
  | nil => rfl
  | cons a t ih =>
    obtain ⟨r, z⟩ := a
    by_cases hr : r = p
    · simp [store, hr]
    · simp [store, hr, ih]

/-- Destroying a source whose peer pointer is null or names a live playback endpoint:
the result of `ausrc_destructor` in closed form. -/
theorem ausrc_destructor_paired (s : State) (ps pp : Nat) (st : ausrc_st) (P : auplay_st)
    (hs : deref s.ausrcl ps = some st) (hpeer : st.st_play = some pp)
    (hp : deref s.auplayl pp = some P) :
    ausrc_destructor s ps =
      .ok { auplayl := store s.auplayl pp
              { P with aumix_src := aumix_source_enable P.aumix_src false }
            ausrcl := list_unlink s.ausrcl ps } := by
  cases hsrc : P.aumix_src with
  | none =>
    have hP : ({ P with aumix_src := aumix_source_enable none false } : auplay_st) = P := by
      cases P
      simp_all [aumix_source_enable]
    simp only [ausrc_destructor, hs, hpeer, hp, hsrc, hP, store_same _ _ _ hp]
  | some m =>
    simp only [ausrc_destructor, hs, hpeer, hp, hsrc]

/-! ## Creation failures -/

/-- C11: when `aumix_source_alloc` fails with a non-zero code `e` during `play_alloc`
(object and buffer allocated, the object's address not in use), `play_alloc` returns
`e`, stores no endpoint through `stp`, and both registries, with every peer pointer in
them, are exactly as before the call. -/
theorem C11_engine_failure_rolls_back (s : State) (prm : auplay_prm) (device : Option String)
    (wh k st e : Nat) (msrc : aumix_source) (he : e ≠ 0) (hfresh : ∀ x ∈ s.auplayl, x.1 ≠ st) :
    play_alloc s true true (some prm) device wh k (some st) true e msrc =
      { err := e, state := s, stp := none } := by
  have hu : auplay_destructor s st = s := by
    cases s
    simp only [auplay_destructor] at *
    rw [list_unlink_fresh _ _ hfresh]
  simp [play_alloc, he, hu]

/-- Witness for C11: engine error 5 while the paired example endpoints exist, although a
source with the same key is registered. -/
theorem C11_engine_failure_rolls_back_witness :
    play_alloc exPaired true true (some { fmt := 0, srate := 48000, ch := 2 }) (some "spk2") 8 42
        (some 2) true 5 { handle := 101, enabled := false } =
      { err := 5, state := exPaired, stp := none } :=
  C11_engine_failure_rolls_back exPaired { fmt := 0, srate := 48000, ch := 2 } (some "spk2") 8 42
    2 5 { handle := 101, enabled := false } (by decide) (by simp [exPaired])

/-- C16: `src_alloc` and `play_alloc` called without a parameter struct return `EINVAL`,
store no endpoint through `stp` and leave both registries, with every peer pointer,
unchanged, whatever the other arguments and allocator results are. -/
theorem C16_missing_prm_is_einval (s : State) (stp asp : Bool) (device : Option String)
    (h k : Nat) (mem : Option Nat) (membuf : Bool) (mix_err : Nat) (msrc : aumix_source) :
    src_alloc s stp asp none device h k mem = { err := EINVAL, state := s, stp := none } ∧
    play_alloc s stp asp none device h k mem membuf mix_err msrc =
      { err := EINVAL, state := s, stp := none } ∧
    EINVAL = 22 := by
  refine ⟨?_, ?_, rfl⟩
  · cases stp <;> cases asp <;> rfl
  · cases stp <;> cases asp <;> rfl

/-! ## Destroying a source endpoint -/

/-- C12: destroying a live source endpoint succeeds and removes it from `ausrcl`, the
other sources staying in order, and the addresses in `auplayl` stay the same in the
same order.  If it had no peer, `auplayl` is unchanged.  If its peer pointer named a
live playback endpoint, that endpoint's mixer source is disabled, nothing else in that
endpoint changes, and every other playback endpoint is unchanged. -/
theorem C12_src_destructor_effects (s : State) (ps : Nat) (st : ausrc_st)
    (hs : deref s.ausrcl ps = some st)
    (hlive : ∀ pp, st.st_play = some pp → ∃ P, deref s.auplayl pp = some P) :
    ∃ s1, ausrc_destructor s ps = .ok s1 ∧
      s1.ausrcl = list_unlink s.ausrcl ps ∧ deref s1.ausrcl ps = none ∧
      s1.auplayl.map Prod.fst = s.auplayl.map Prod.fst ∧
      (st.st_play = none → s1.auplayl = s.auplayl) ∧
      (∀ pp P, st.st_play = some pp → deref s.auplayl pp = some P →
        deref s1.auplayl pp =
            some { P with aumix_src := aumix_source_enable P.aumix_src false } ∧
          (∀ m, P.aumix_src = some m →
            (deref s1.auplayl pp).bind enabled_of = some false) ∧
          ∀ q, q ≠ pp → deref s1.auplayl q = deref s.auplayl q) := by
  cases hpeer : st.st_play with
  | none =>
    refine ⟨{ s with ausrcl := list_unlink s.ausrcl ps }, ?_, rfl,
      deref_list_unlink_self _ _, rfl, fun _ => rfl, ?_⟩
    · simp only [ausrc_destructor, hs, hpeer]
    · intro pp P h
      exact absurd h (by simp)
  | some pp0 =>
    obtain ⟨P0, hp0⟩ := hlive pp0 hpeer
    refine ⟨_, ausrc_destructor_paired s ps pp0 st P0 hs hpeer hp0, rfl,
      deref_list_unlink_self _ _, store_map_fst _ _ _, fun h => absurd h (by simp), ?_⟩
    intro pp P h hP
    have hpp : pp0 = pp := by simpa using h
    subst hpp
    have hPP : P0 = P := by
      rw [hp0] at hP
      exact Option.some.inj hP
    subst hPP
    refine ⟨deref_store_self _ _ _ _ hp0, ?_, fun q hq => deref_store_other _ _ _ _ hq⟩
    intro m hm
    simp [deref_store_self _ _ _ _ hp0, enabled_of, aumix_source_enable, hm]

/-- Witness for C12: destroying source 10 of the paired, enabled example succeeds,
empties the source registry and keeps playback 1 registered, now disabled. -/
theorem C12_src_destructor_effects_witness :
    ∃ s1, ausrc_destructor exPairedOn 10 = .ok s1 ∧ deref s1.ausrcl 10 = none ∧
      s1.auplayl.map Prod.fst = exPairedOn.auplayl.map Prod.fst ∧
      (deref s1.auplayl 1).bind enabled_of = some false :=
  (C12_src_destructor_effects exPairedOn 10 { exSrc with st_play := some 1 } rfl
    (fun _ hpp => ⟨{ exPlay with st_src := some 10,
                                 aumix_src := some { handle := 100, enabled := true } },
      (Option.some.inj hpp) ▸ rfl⟩)).imp
    (fun _ h => ⟨h.1, h.2.2.1, h.2.2.2.1,
      (h.2.2.2.2.2 1 _ rfl rfl).2.1 { handle := 100, enabled := true } rfl⟩)

/-! ## First match wins -/

theorem src_scan_snd (st k : Nat) (l : List (Nat × auplay_st)) :
    (src_scan st k l).2 = first_play_with_key l k := by
  induction l with
  | nil => rfl
  | cons a t ih =>
    obtain ⟨q, y⟩ := a
    by_cases hq : k = y.arg
    · simp [src_scan, first_play_with_key, hq]
    · have hq1 : ¬ y.arg = k := fun e => hq e.symm
      simpa [src_scan, first_play_with_key, hq, hq1] using ih

theorem play_scan_snd (st k : Nat) (l : List (Nat × ausrc_st)) :
    (play_scan st k l).2 = first_src_with_key l k := by
  induction l with
  | nil => rfl
  | cons a t ih =>
    obtain ⟨q, y⟩ := a
    by_cases hq : k = y.arg
    · simp [play_scan, first_src_with_key, hq]
    · have hq1 : ¬ y.arg = k := fun e => hq e.symm
      simpa [play_scan, first_src_with_key, hq, hq1] using ih

theorem first_play_none (k : Nat) (l : List (Nat × auplay_st))
    (h : first_play_with_key l k = none) : ∀ e ∈ l, e.2.arg ≠ k := by
  intro e he
  simp only [first_play_with_key, Option.map_eq_none', List.find?_eq_none] at h
  simpa using h e he

theorem first_src_none (k : Nat) (l : List (Nat × ausrc_st))
    (h : first_src_with_key l k = none) : ∀ e ∈ l, e.2.arg ≠ k := by
  intro e he
  simp only [first_src_with_key, Option.map_eq_none', List.find?_eq_none] at h
  simpa using h e he

/-- C13: a successful `src_alloc` with key `k` appends the new source at the end of
`ausrcl` with its peer pointer set to the first playback endpoint, in insertion order,
whose key is `k` (null when there is none); that playback endpoint, and no other, gets
its peer pointer set to the new source.  `play_alloc` does the same over `ausrcl`. -/
theorem C13_first_match_and_append (s : State) (sprm : ausrc_prm) (pprm : auplay_prm)
    (sdev pdev : Option String) (rh wh k st : Nat) (msrc : aumix_source) :
    ((src_alloc s true true (some sprm) sdev rh k (some st)).err = 0 ∧
      (src_alloc s true true (some sprm) sdev rh k (some st)).stp = some st ∧
      (src_alloc s true true (some sprm) sdev rh k (some st)).state.ausrcl =
        s.ausrcl ++ [(st, { prm := sprm, rh := rh, st_play := first_play_with_key s.auplayl k,
                            arg := k, device := sdev })] ∧
      (first_play_with_key s.auplayl k = none →
        (src_alloc s true true (some sprm) sdev rh k (some st)).state.auplayl = s.auplayl) ∧
      (∀ l1 p P l2, s.auplayl = l1 ++ (p, P) :: l2 → (∀ e ∈ l1, e.2.arg ≠ k) → P.arg = k →
        first_play_with_key s.auplayl k = some p ∧
        (src_alloc s true true (some sprm) sdev rh k (some st)).state.auplayl =
          l1 ++ (p, { P with st_src := some st }) :: l2)) ∧
    ((play_alloc s true true (some pprm) pdev wh k (some st) true 0 msrc).err = 0 ∧
      (play_alloc s true true (some pprm) pdev wh k (some st) true 0 msrc).stp = some st ∧
      (play_alloc s true true (some pprm) pdev wh k (some st) true 0 msrc).state.auplayl =
        s.auplayl ++ [(st, { prm := pprm, wh := wh,
                             sampv := List.replicate (SRATE * CH * PTIME / 1000) 0,
                             aumix_src := some msrc, st_src := first_src_with_key s.ausrcl k,
                             arg := k, ts := 0, device := pdev })] ∧
      (first_src_with_key s.ausrcl k = none →
        (play_alloc s true true (some pprm) pdev wh k (some st) true 0 msrc).state.ausrcl =
          s.ausrcl) ∧
      (∀ l1 p S l2, s.ausrcl = l1 ++ (p, S) :: l2 → (∀ e ∈ l1, e.2.arg ≠ k) → S.arg = k →
        first_src_with_key s.ausrcl k = some p ∧
        (play_alloc s true true (some pprm) pdev wh k (some st) true 0 msrc).state.ausrcl =
          l1 ++ (p, { S with st_play := some st }) :: l2)) := by
  refine ⟨⟨rfl, rfl, ?_, ?_, ?_⟩, ⟨rfl, rfl, ?_, ?_, ?_⟩⟩
  · simp only [src_alloc, list_append, src_scan_snd]
  · intro h
    simp only [src_alloc, src_scan_no_match st k _ (first_play_none k _ h)]
  · intro l1 p P l2 hl h1 hP
    have hsc := src_scan_middle st k p P l1 l2 h1 hP
    have hfst := src_scan_snd st k s.auplayl
    rw [hl, hsc] at hfst
    refine ⟨by rw [hl]; exact hfst.symm, ?_⟩
    simp only [src_alloc, hl, hsc]
  · simp only [play_alloc, list_append, play_scan_snd]
    rfl
  · intro h
    simp only [play_alloc, play_scan_no_match st k _ (first_src_none k _ h)]
    rfl
  · intro l1 p S l2 hl h1 hS
    have hsc := play_scan_middle st k p S l1 l2 h1 hS
    have hfst := play_scan_snd st k s.ausrcl
    rw [hl, hsc] at hfst
    refine ⟨by rw [hl]; exact hfst.symm, ?_⟩
    simp only [play_alloc, hl, hsc]
    rfl

/-- Witness for C13: with playbacks keyed 7, 42, 42 a new source with key 42 is paired
with the second entry, the earliest one carrying 42. -/
theorem C13_first_match_and_append_witness :
    first_play_with_key exThree.auplayl 42 = some 2 ∧
    (src_alloc exThree true true (some { fmt := 3, srate := 8000, ch := 1 }) (some "mic2") 6 42
        (some 12)).state.auplayl =
      [(1, { exPlay with arg := 7 })] ++ (2, { exPlay with st_src := some 12 }) :: [(3, exPlay)] :=
  (C13_first_match_and_append exThree { fmt := 3, srate := 8000, ch := 1 }
    { fmt := 0, srate := 48000, ch := 2 } (some "mic2") (some "spk2") 6 8 42 12
    { handle := 101, enabled := false }).1.2.2.2.2
    [(1, { exPlay with arg := 7 })] 2 exPlay [(3, exPlay)] rfl (by simp [exPlay]) rfl

/-! ## Disable, then enable -/

theorem dropWhile_comma_token (d rest : List Char) (hne : d ≠ []) (hc : ∀ c ∈ d, c ≠ ',') :
    (d ++ ',' :: rest).dropWhile (fun c => c == ',') = d ++ ',' :: rest := by
  cases d with
  | nil => exact absurd rfl hne
  | cons c t =>
    have h : (c == ',') = false := by simpa using hc c (List.mem_cons_self _ _)
    simp [List.dropWhile_cons, h]

theorem takeWhile_token (d rest : List Char) (hc : ∀ c ∈ d, c ≠ ',') :
    (d ++ ',' :: rest).takeWhile (fun c => c != ',') = d := by
  induction d with
  | nil => simp [List.takeWhile]
  | cons c t ih =>
    have h : (c != ',') = true := by simpa using hc c (List.mem_cons_self _ _)
    have ht : ∀ x ∈ t, x ≠ ',' := fun x hx => hc x (List.mem_cons_of_mem _ hx)
    simp [List.takeWhile_cons, h, ih ht]

theorem dropWhile_token (d rest : List Char) (hc : ∀ c ∈ d, c ≠ ',') :
    (d ++ ',' :: rest).dropWhile (fun c => c != ',') = ',' :: rest := by
  induction d with
  | nil => simp [List.dropWhile]
  | cons c t ih =>
    have h : (c != ',') = true := by simpa using hc c (List.mem_cons_self _ _)
    have ht : ∀ x ∈ t, x ≠ ',' := fun x hx => hc x (List.mem_cons_of_mem _ hx)
    simp [List.dropWhile_cons, h, ih ht]

/-- The parse of a well-formed argument: the device capture points at the start of the
whole argument, the boolean capture at what follows the comma. -/
theorem re_regex_token (d rest : List Char) (hne : d ≠ []) (hc : ∀ c ∈ d, c ≠ ',') :
    re_regex_device_enable (d ++ ',' :: rest) =
      (0, { p := some (d ++ ',' :: rest), l := d.length },
        { p := some rest, l := rest.length }) := by
  simp only [re_regex_device_enable, dropWhile_comma_token d rest hne hc,
    takeWhile_token d rest hc, dropWhile_token d rest hc]

theorem source_enable_token (s : State) (d rest : List Char) (e0 : Bool) (hne : d ≠ [])
    (hc : ∀ c ∈ d, c ≠ ',') :
    source_enable s (String.mk (d ++ ',' :: rest)) e0 =
      (0, { s with
            auplayl := source_enable_loop { p := some (d ++ ',' :: rest), l := d.length }
              ((str_bool (some rest)).getD e0) s.auplayl }) := by
  simp [source_enable, re_regex_token d rest hne hc]

theorem source_enable_loop_frame (device : pl) (enable : Bool) (l : List (Nat × auplay_st)) :
    (source_enable_loop device enable l).map (fun e => (e.1, without_enabled e.2)) =
      l.map (fun e => (e.1, without_enabled e.2)) := by
  induction l with
  | nil => rfl
  | cons a t ih =>
    obtain ⟨q, y⟩ := a
    by_cases h : str_cmp (y.device.map String.toList) device.p = 0
    · simp [source_enable_loop, h, ih]
    · simp only [source_enable_loop, h, if_false, List.map_cons, ih, List.cons.injEq, and_true,
        Prod.mk.injEq, true_and]
      cases hy : y.aumix_src <;> simp [without_enabled, aumix_source_enable, hy]

theorem source_enable_loop_named (d rest : List Char) (n : Nat) (enable : Bool)
    (l : List (Nat × auplay_st)) :
    ∀ e ∈ source_enable_loop { p := some (d ++ ',' :: rest), l := n } enable l,
      e.2.device = some (String.mk d) → ∀ m, e.2.aumix_src = some m → m.enabled = enable := by
  induction l with
  | nil =>
    intro e he
    simp [source_enable_loop] at he
  | cons a t ih =>
    obtain ⟨q, y⟩ := a
    intro e he hdev m hm
    by_cases h : str_cmp (y.device.map String.toList) (some (d ++ ',' :: rest)) = 0
    · simp only [source_enable_loop, h, if_true, List.mem_cons] at he
      rcases he with he | he
      · subst he
        have hne : d ≠ d ++ ',' :: rest := by
          intro hEq
          have := congrArg List.length hEq
          simp at this
        simp only [] at hdev
        simp [str_cmp, hdev, hne] at h
      · exact ih e he hdev m hm
    · simp only [source_enable_loop, h, if_false, List.mem_cons] at he
      rcases he with he | he
      · subst he
        simp only [aumix_source_enable] at hm
        cases hy : y.aumix_src with
        | none => simp [hy] at hm
        | some m0 =>
          simp only [hy, Option.map_some', Option.some.injEq] at hm
          rw [← hm]
      · exact ih e he hdev m hm

/-- C14: for a device name `d` that the command can carry (non-empty, no comma),
`aumix_enable d,false` followed by `aumix_enable d,true` both succeed, leave every
playback endpoint named `d` with its mixer source enabled, leave the source registry
untouched, and leave the playback registry as it was in membership and order and, for
every endpoint, in peer pointer, buffer, mixer-source handle, timestamp and all other
fields except the enabled flag. -/
theorem C14_disable_then_enable (s : State) (d : List Char) (e0 e1 : Bool) (hne : d ≠ [])
    (hc : ∀ c ∈ d, c ≠ ',') :
    (source_enable s (String.mk (d ++ ",false".toList)) e0).1 = 0 ∧
    (source_enable (source_enable s (String.mk (d ++ ",false".toList)) e0).2
      (String.mk (d ++ ",true".toList)) e1).1 = 0 ∧
    (∀ e ∈ (disable_then_enable s d e0 e1).auplayl, e.2.device = some (String.mk d) →
      ∀ m, e.2.aumix_src = some m → m.enabled = true) ∧
    (disable_then_enable s d e0 e1).ausrcl = s.ausrcl ∧
    (disable_then_enable s d e0 e1).auplayl.map (fun e => (e.1, without_enabled e.2)) =
      s.auplayl.map (fun e => (e.1, without_enabled e.2)) := by
  have h1 := source_enable_token s d "false".toList e0 hne hc
  have h2 := fun s1 => source_enable_token s1 d "true".toList e1 hne hc
  have hf : (",false".toList : List Char) = ',' :: "false".toList := rfl
  have ht : (",true".toList : List Char) = ',' :: "true".toList := rfl
  have hbt : str_bool (some "true".toList) = some true := by decide
  refine ⟨?_, ?_, ?_, ?_, ?_⟩
  · rw [hf, h1]
  · rw [ht, h2]
  · intro e he
    simp only [disable_then_enable, hf, ht, h1, h2, hbt, Option.getD_some] at he
    exact source_enable_loop_named d "true".toList d.length true _ e he
  · simp only [disable_then_enable, hf, ht, h1, h2]
  · simp only [disable_then_enable, hf, ht, h1, h2, source_enable_loop_frame]

/-- Witness for C14: device `spk` on the two-endpoint example. -/
theorem C14_disable_then_enable_witness :
    (disable_then_enable exTwo "spk".toList false false).auplayl.map
        (fun e => (e.1, without_enabled e.2)) =
      exTwo.auplayl.map (fun e => (e.1, without_enabled e.2)) ∧
    ∀ e ∈ (disable_then_enable exTwo "spk".toList false false).auplayl,
      e.2.device = some (String.mk "spk".toList) →
        ∀ m, e.2.aumix_src = some m → m.enabled = true :=
  have h := C14_disable_then_enable exTwo "spk".toList false false (by decide) (by decide)
  ⟨h.2.2.2.2, h.2.2.1⟩

/-! ## What a tick leaves alone -/

theorem store_map_congr {α β : Type} (f : α → β) (l : List (Nat × α)) (p : Nat) (x y : α)
    (h : deref l p = some x) (hf : f y = f x) :
    (store l p y).map (fun e => (e.1, f e.2)) = l.map (fun e => (e.1, f e.2)) := by
  induction l with
  | nil => rfl
  | cons a t ih =>
    obtain ⟨q, z⟩ := a
    by_cases hq : q = p
    · simp only [deref, hq, if_true, Option.some.injEq] at h
      simp [store, hq, hf, h]
    · simp only [deref, hq, if_false] at h
      simp [store, hq, ih h]

/-- A tick that returns found the endpoint, a peer pointer and a live peer. -/
theorem mix_handler_ok_inv (cb : Callbacks) (s s1 : State) (sampv : List Int) (sampc p : Nat)
    (evs : List Event) (h : mix_handler cb s sampv sampc p = .ok (s1, evs)) :
    ∃ st_play sp st_src, deref s.auplayl p = some st_play ∧ st_play.st_src = some sp ∧
      deref s.ausrcl sp = some st_src := by
  cases hp : deref s.auplayl p with
  | none => simp [mix_handler, hp] at h
  | some st_play =>
    cases hpeer : st_play.st_src with
    | none => simp [mix_handler, hp, hpeer] at h
    | some sp =>
      cases hs : deref s.ausrcl sp with
      | none => simp [mix_handler, hp, hpeer, hs] at h
      | some st_src => exact ⟨st_play, sp, st_src, rfl, hpeer, hs⟩

/-- C17: a tick on a paired playback endpoint `P` succeeds and leaves the source registry
untouched; the playback registry keeps its membership and order and every endpoint
keeps its parameters, handler, mixer source, peer pointer, key and device name; every
other playback endpoint is unchanged altogether.  `P`'s timestamp is advanced by 20000
(modulo 2^64), and the content of `P`'s buffer is whatever the write handler left in
it: when the handler leaves the buffer as it was, the timestamp is the only change. -/
theorem C17_tick_frame (cb : Callbacks) (s : State) (sampv : List Int) (sampc p sp : Nat)
    (st_play : auplay_st) (st_src : ausrc_st) (hp : deref s.auplayl p = some st_play)
    (hpeer : st_play.st_src = some sp) (hs : deref s.ausrcl sp = some st_src) :
    ∃ s1 evs, mix_handler cb s sampv sampc p = .ok (s1, evs) ∧
      s1.ausrcl = s.ausrcl ∧
      s1.auplayl.map (fun e => (e.1, without_ts_buf e.2)) =
        s.auplayl.map (fun e => (e.1, without_ts_buf e.2)) ∧
      (∀ q, q ≠ p → deref s1.auplayl q = deref s.auplayl q) ∧
      (deref s1.auplayl p).map (fun st => st.ts) = some ((st_play.ts + 20000) % 2 ^ 64) ∧
      (cb.wh st_play.wh
          { fmt := st_play.prm.fmt, sampv := st_play.sampv, sampc := sampc,
            srate := st_play.prm.srate, ch := st_play.prm.ch, timestamp := st_play.ts }
          st_play.arg = st_play.sampv →
        s1 = { s with
               auplayl := store s.auplayl p
                 { st_play with ts := (st_play.ts + 20000) % 2 ^ 64 } }) := by
  refine ⟨_, _, mix_handler_paired cb s sampv sampc p sp st_play st_src hp hpeer hs, rfl,
    store_map_congr without_ts_buf _ _ _ _ hp rfl,
    fun q hq => deref_store_other _ _ _ _ hq, ?_, ?_⟩
  · simp [deref_store_self _ _ _ _ hp, PTIME]
  · intro hbuf
    simp [hbuf, PTIME]

/-- Witness for C17: one tick of the paired example with a handler that leaves the
buffer as it was changes the timestamp only. -/
theorem C17_tick_frame_witness :
    ∃ s1 evs, mix_handler { wh := fun _ af _ => af.sampv } exPaired [1, 2] 2 1 = .ok (s1, evs) ∧
      s1 = { exPaired with
             auplayl := store exPaired.auplayl 1
               { exPlay with st_src := some 10, ts := (0 + 20000) % 2 ^ 64 } } :=
  (C17_tick_frame { wh := fun _ af _ => af.sampv } exPaired [1, 2] 2 1 10
    { exPlay with st_src := some 10 } { exSrc with st_play := some 1 } rfl rfl rfl).imp
    (fun _ h => h.imp (fun _ h1 => ⟨h1.1, h1.2.2.2.2.2 rfl⟩))

/-! ## Buffer size -/

theorem src_scan_map_congr {β : Type} (f : auplay_st → β)
    (hf : ∀ (x : auplay_st) (v : Option Nat), f { x with st_src := v } = f x) (st k : Nat)
    (l : List (Nat × auplay_st)) :
    (src_scan st k l).1.map (fun e => (e.1, f e.2)) = l.map (fun e => (e.1, f e.2)) := by
  induction l with
  | nil => rfl
  | cons a t ih =>
    obtain ⟨q, y⟩ := a
    by_cases hq : k = y.arg
    · simp [src_scan, hq, hf]
    · simp [src_scan, hq, ih]

theorem play_scan_map_congr {β : Type} (f : ausrc_st → β)
    (hf : ∀ (x : ausrc_st) (v : Option Nat), f { x with st_play := v } = f x) (st k : Nat)
    (l : List (Nat × ausrc_st)) :
    (play_scan st k l).1.map (fun e => (e.1, f e.2)) = l.map (fun e => (e.1, f e.2)) := by
  induction l with
  | nil => rfl
  | cons a t ih =>
    obtain ⟨q, y⟩ := a
    by_cases hq : k = y.arg
    · simp [play_scan, hq, hf]
    · simp [play_scan, hq, ih]

theorem source_enable_loop_sizes (device : pl) (enable : Bool) (l : List (Nat × auplay_st)) :
    (source_enable_loop device enable l).map (fun e => (e.1, e.2.sampv.length)) =
      l.map (fun e => (e.1, e.2.sampv.length)) := by
  induction l with
  | nil => rfl
  | cons a t ih =>
    obtain ⟨q, y⟩ := a
    by_cases h : str_cmp (y.device.map String.toList) device.p = 0
    · simp [source_enable_loop, h, ih]
    · simp [source_enable_loop, h, ih]

/-- C15, counterexample: a playback endpoint created with 8000 Hz and 1 channel gets a
buffer of 1920 samples, while its own parameters give 8000 * 1 * 20 / 1000 = 160. -/
theorem C15_buffer_size_counterexample :
    (deref (play_alloc exEmpty true true (some { fmt := 0, srate := 8000, ch := 1 }) (some "spk")
        7 42 (some 1) true 0 { handle := 100, enabled := false }).state.auplayl 1).map
      (fun st => (st.prm.srate * st.prm.ch * PTIME / 1000, st.sampv.length)) =
      some (160, 1920) := by
  simp only [play_alloc, exEmpty, play_scan, list_append, deref, List.nil_append, if_true,
    ne_eq, not_true_eq_false, if_false, Option.map_some', List.length_replicate]
  decide

/-- C15, amended: every successfully created playback endpoint owns a buffer of exactly
`SRATE * CH * PTIME / 1000` = 1920 samples, from the module constants 48000 Hz, 2
channels and 20 ms, whatever its own parameters are; and a tick (with a write handler
that writes within the frame's buffer), the pairing done by `src_alloc`, and
`source_enable` leave the buffer size of every playback endpoint as it was. -/
theorem C15_buffer_size_constant (cb : Callbacks) (s : State) (prm : auplay_prm)
    (device : Option String) (wh k pp : Nat) (msrc : aumix_source)
    (hfresh : ∀ e ∈ s.auplayl, e.1 ≠ pp)
    (hcb : ∀ h af a, (cb.wh h af a).length = af.sampv.length) :
    (deref (play_alloc s true true (some prm) device wh k (some pp) true 0 msrc).state.auplayl
        pp).map (fun st => st.sampv.length) = some (SRATE * CH * PTIME / 1000) ∧
    SRATE * CH * PTIME / 1000 = 1920 ∧
    (∀ sampv sampc p s1 evs, mix_handler cb s sampv sampc p = .ok (s1, evs) →
      buf_sizes s1 = buf_sizes s) ∧
    (∀ stp asp sprm sdev rh k2 mem,
      buf_sizes (src_alloc s stp asp sprm sdev rh k2 mem).state = buf_sizes s) ∧
    (∀ arg e0, buf_sizes (source_enable s arg e0).2 = buf_sizes s) := by
  refine ⟨?_, by decide, ?_, ?_, ?_⟩
  · simp [play_alloc, list_append, deref_append_fresh _ _ _ hfresh]
  · intro sampv sampc p s1 evs h
    obtain ⟨st_play, sp, st_src, hp, hpeer, hs⟩ := mix_handler_ok_inv cb s s1 sampv sampc p evs h
    rw [mix_handler_paired cb s sampv sampc p sp st_play st_src hp hpeer hs] at h
    have h1 := (Prod.mk.inj (Except.ok.inj h)).1
    rw [← h1]
    refine store_map_congr (fun st => st.sampv.length) _ _ _ _ hp ?_
    exact hcb _ _ _
  · intro stp asp sprm sdev rh k2 mem
    cases stp <;> cases asp <;> cases sprm <;> cases mem <;>
      first
        | rfl
        | exact src_scan_map_congr (fun st => st.sampv.length) (fun _ _ => rfl) _ _ _
  · intro arg e0
    by_cases h : (re_regex_device_enable arg.toList).1 = 0
    · simp only [source_enable, h, ne_eq, not_true_eq_false, if_false, buf_sizes]
      exact source_enable_loop_sizes _ _ _
    · simp only [source_enable, h, ne_eq, not_false_eq_true, if_true]

/-- Witness for C15: an 8000 Hz mono endpoint created next to the paired example. -/
theorem C15_buffer_size_constant_witness :
    (deref (play_alloc exPaired true true (some { fmt := 0, srate := 8000, ch := 1 })
        (some "spk2") 8 43 (some 2) true 0 { handle := 101, enabled := false }).state.auplayl
        2).map (fun st => st.sampv.length) = some (SRATE * CH * PTIME / 1000) ∧
    SRATE * CH * PTIME / 1000 = 1920 :=
  have h := C15_buffer_size_constant { wh := fun _ af _ => af.sampv.map (fun x => x + 1) }
    exPaired { fmt := 0, srate := 8000, ch := 1 } (some "spk2") 8 43 2
    { handle := 101, enabled := false } (by simp [exPaired]) (by simp)
  ⟨h.1, h.2.1⟩

/-! ## What creation leaves alone -/

theorem forall2_self {α : Type} (R : α → α → Prop) (hR : ∀ a, R a a) (l : List α) :
    List.Forall₂ R l l := by
  induction l with
  | nil => exact List.Forall₂.nil
  | cons a t ih => exact List.Forall₂.cons (hR a) ih

theorem src_scan_forall2 (st k : Nat) (l : List (Nat × auplay_st)) :
    List.Forall₂
      (fun a b => b.1 = a.1 ∧ play_without_peer b.2 = play_without_peer a.2 ∧
        (a.2.arg ≠ k → b = a))
      l (src_scan st k l).1 := by
  induction l with
  | nil => exact List.Forall₂.nil
  | cons a t ih =>
    obtain ⟨q, y⟩ := a
    by_cases hq : k = y.arg
    · simp only [src_scan, hq, if_true]
      refine List.Forall₂.cons ⟨rfl, rfl, fun h => absurd rfl h⟩ ?_
      exact forall2_self _ (fun a => ⟨rfl, rfl, fun _ => rfl⟩) t
    · simp only [src_scan, hq, if_false]
      exact List.Forall₂.cons ⟨rfl, rfl, fun _ => rfl⟩ ih

theorem play_scan_forall2 (st k : Nat) (l : List (Nat × ausrc_st)) :
    List.Forall₂
      (fun a b => b.1 = a.1 ∧ src_without_peer b.2 = src_without_peer a.2 ∧
        (a.2.arg ≠ k → b = a))
      l (play_scan st k l).1 := by
  induction l with
  | nil => exact List.Forall₂.nil
  | cons a t ih =>
    obtain ⟨q, y⟩ := a
    by_cases hq : k = y.arg
    · simp only [play_scan, hq, if_true]
      refine List.Forall₂.cons ⟨rfl, rfl, fun h => absurd rfl h⟩ ?_
      exact forall2_self _ (fun a => ⟨rfl, rfl, fun _ => rfl⟩) t
    · simp only [play_scan, hq, if_false]
      exact List.Forall₂.cons ⟨rfl, rfl, fun _ => rfl⟩ ih

/-- Every outcome of `src_alloc`: the globals are untouched, or the scan ran and the new
source, carrying the key, was appended. -/
theorem src_alloc_state (s : State) (stp asp : Bool) (prm : Option ausrc_prm)
    (device : Option String) (rh k : Nat) (mem : Option Nat) :
    (src_alloc s stp asp prm device rh k mem).state = s ∨
      ∃ st obj, obj.arg = k ∧
        (src_alloc s stp asp prm device rh k mem).state =
          { auplayl := (src_scan st k s.auplayl).1, ausrcl := s.ausrcl ++ [(st, obj)] } := by
  cases stp <;> cases asp <;> cases prm <;> cases mem <;>
    first
      | exact Or.inl rfl
      | exact Or.inr ⟨_, _, rfl, rfl⟩

/-- Every outcome of `play_alloc` when the object's address is not in use: the globals
are untouched, or the scan ran and the new playback, carrying the key, was appended. -/
theorem play_alloc_state (s : State) (stp ap : Bool) (prm : Option auplay_prm)
    (device : Option String) (wh k : Nat) (mem : Option Nat) (membuf : Bool) (mix_err : Nat)
    (msrc : aumix_source) (hfresh : ∀ st, mem = some st → ∀ e ∈ s.auplayl, e.1 ≠ st) :
    (play_alloc s stp ap prm device wh k mem membuf mix_err msrc).state = s ∨
      ∃ st obj, obj.arg = k ∧
        (play_alloc s stp ap prm device wh k mem membuf mix_err msrc).state =
          { auplayl := s.auplayl ++ [(st, obj)], ausrcl := (play_scan st k s.ausrcl).1 } := by
  cases stp <;> cases ap <;> cases prm <;> cases mem <;>
    first
      | exact Or.inl rfl
      | skip
  rename_i prm st
  have hu : auplay_destructor s st = s := by
    cases s
    simp only [auplay_destructor] at *
    rw [list_unlink_fresh _ _ (hfresh st rfl)]
  cases membuf
  · exact Or.inl hu
  · by_cases he : mix_err = 0
    · subst he
      exact Or.inr ⟨_, _, rfl, rfl⟩
    · left
      simp [play_alloc, he, hu]

/-- C18: whatever its outcome, creating a source endpoint with key `k` leaves the
existing entries of `ausrcl` as they were (at most the new source, carrying `k`, is
appended at the tail) and keeps `auplayl` in membership and order, every playback
endpoint keeping all fields except possibly its peer pointer, and every playback
endpoint whose key differs from `k` unchanged altogether.  Creating a playback
endpoint (at an address not in use) does the same with the registries exchanged. -/
theorem C18_creation_frame (s : State) (k rh wh : Nat) (stp asp : Bool)
    (sprm : Option ausrc_prm) (pprm : Option auplay_prm) (sdev pdev : Option String)
    (mem : Option Nat) (membuf : Bool) (mix_err : Nat) (msrc : aumix_source)
    (hfresh : ∀ st, mem = some st → ∀ e ∈ s.auplayl, e.1 ≠ st) :
    (((src_alloc s stp asp sprm sdev rh k mem).state.ausrcl = s.ausrcl ∨
        ∃ st obj, obj.arg = k ∧
          (src_alloc s stp asp sprm sdev rh k mem).state.ausrcl = s.ausrcl ++ [(st, obj)]) ∧
      List.Forall₂
        (fun a b => b.1 = a.1 ∧ play_without_peer b.2 = play_without_peer a.2 ∧
          (a.2.arg ≠ k → b = a))
        s.auplayl (src_alloc s stp asp sprm sdev rh k mem).state.auplayl) ∧
    (((play_alloc s stp asp pprm pdev wh k mem membuf mix_err msrc).state.auplayl = s.auplayl ∨
        ∃ st obj, obj.arg = k ∧
          (play_alloc s stp asp pprm pdev wh k mem membuf mix_err msrc).state.auplayl =
            s.auplayl ++ [(st, obj)]) ∧
      List.Forall₂
        (fun a b => b.1 = a.1 ∧ src_without_peer b.2 = src_without_peer a.2 ∧
          (a.2.arg ≠ k → b = a))
        s.ausrcl (play_alloc s stp asp pprm pdev wh k mem membuf mix_err msrc).state.ausrcl) := by
  constructor
  · rcases src_alloc_state s stp asp sprm sdev rh k mem with h | ⟨st, obj, hk, h⟩
    · rw [h]
      exact ⟨Or.inl rfl, forall2_self _ (fun a => ⟨rfl, rfl, fun _ => rfl⟩) _⟩
    · rw [h]
      exact ⟨Or.inr ⟨st, obj, hk, rfl⟩, src_scan_forall2 st k s.auplayl⟩
  · rcases play_alloc_state s stp asp pprm pdev wh k mem membuf mix_err msrc hfresh with
      h | ⟨st, obj, hk, h⟩
    · rw [h]
      exact ⟨Or.inl rfl, forall2_self _ (fun a => ⟨rfl, rfl, fun _ => rfl⟩) _⟩
    · rw [h]
      exact ⟨Or.inr ⟨st, obj, hk, rfl⟩, play_scan_forall2 st k s.ausrcl⟩

/-- Witness for C18: a source with key 42 created at address 12 in the example with
playbacks keyed 7, 42, 42. -/
theorem C18_creation_frame_witness :
    List.Forall₂
      (fun a b => b.1 = a.1 ∧ play_without_peer b.2 = play_without_peer a.2 ∧
        (a.2.arg ≠ 42 → b = a))
      exThree.auplayl
      (src_alloc exThree true true (some { fmt := 3, srate := 8000, ch := 1 }) (some "mic2") 6 42
        (some 12)).state.auplayl :=
  (C18_creation_frame exThree 42 6 8 true true (some { fmt := 3, srate := 8000, ch := 1 })
    (some { fmt := 0, srate := 48000, ch := 2 }) (some "mic2") (some "spk2") (some 12) true 0
    { handle := 101, enabled := false }
    (fun st h => (Option.some.inj h) ▸ (by simp [exThree]))).1.2

end Aumix
